import Mathlib

/-!
# req: tuple comparison, object display and HTTP object selection

A shallow embedding of `value/tuple.go` and of the objects of
`eval/object.go`, followed by the properties proved about them.

Conventions of the embedding.

* A Go `string` and the content of a byte buffer are both Lean `String`s: the
  code only concatenates them and compares them with literals.
* A Go result pair `(Value, error)` whose callee is not part of the sources is
  a pair of options, `none` standing for `nil`.
* A function that returns `(Object, error)` built in the sources returns an
  `Except String Object`, the string being the message given to `errors.New`.
* Code that may stop with a run-time panic returns a `Run`, which also has an
  outcome for a statement that is not valid Go.
* A method that writes through the embedded `*http.Request` or
  `*http.Response` pointer returns the new state of the wrapped object next to
  its result.
-/

namespace value

/-- Modelled from the spec: `syntax.Op`, the operator of a comparison, declared
in the `syntax` package, which is not among the sources. -/
abbrev Op := Nat

/-- The Go `error` interface, seen through its message. -/
abbrev error := String

/-- Modelled from the spec: the `valueType` tags of the `value` package.  Only
`tupleType` is named in `tuple.go`; every other tag is `otherType n`. -/
inductive valueType
  | tupleType
  | otherType (n : Nat)
  deriving DecidableEq, Repr

/-- Modelled from the spec: the implementations of the `Value` interface.
`tuple.go` declares `Tuple` and type-asserts a result to `Bool`, reading its
field `Value`; the remaining implementations are `other`. -/
inductive Value
  | Bool (Value : Bool)
  | Tuple (T1 T2 : Value)
  | other (tag : Nat)
  deriving DecidableEq, Repr

/-- The pair `(Value, error)` returned by a `cmp` method. -/
abbrev Result := Option Value × Option error

/-- The struct `Tuple` of `tuple.go`. -/
structure Tuple where
  T1 : Value
  T2 : Value
  deriving DecidableEq, Repr

/-- `(*Tuple).valueType`. -/
def Tuple.valueType (_t : Tuple) : value.valueType := value.valueType.tupleType

/-- The body of the `for` loop of `(*Tuple).cmp` over the remaining
alternatives: `ans, _ := v.cmp(op, b)`, then `return ans, nil` when `ans` is a
`Bool` whose `Value` is true.  `none` means the loop ran to its end. -/
def Tuple.cmpLoop (vcmp : Value → Op → Value → Result) (op : Op) (b : Value) :
    List Value → Option Result
  | [] => none
  | v :: vs =>
    let ans := (vcmp v op b).1
    match ans with
    | some (Value.Bool true) => some (ans, none)
    | _ => Tuple.cmpLoop vcmp op b vs

/-- `(*Tuple).cmp`.  `vcmp v op b` is the dynamic call `v.cmp(op, b)` on an
alternative and `opError` the error constructor of the package; both are
declared outside `tuple.go`. -/
def Tuple.cmp (vcmp : Value → Op → Value → Result)
    (opError : Op → value.valueType → error)
    (t : Tuple) (op : Op) (b : Value) : Result :=
  match Tuple.cmpLoop vcmp op b [t.T1, t.T2] with
  | some r => r
  | none => (none, some (opError op value.valueType.tupleType))

end value

namespace eval

/-- The type `Type` of `object.go` with its twelve constants (`Type` itself is
a reserved word). -/
inductive Typ
  | String
  | Int
  | Bool
  | Array
  | Hash
  | File
  | Request
  | Response
  | Stream
  | Name
  | Key
  | Nil
  deriving DecidableEq, Repr

/-- The method `Type.String` that `stringer -type Type -linecomment` generates:
each constant is rendered as its line comment. -/
def Type_String : Typ → String
  | Typ.String => "string"
  | Typ.Int => "int"
  | Typ.Bool => "bool"
  | Typ.Array => "array"
  | Typ.Hash => "hash"
  | Typ.File => "file"
  | Typ.Request => "request"
  | Typ.Response => "response"
  | Typ.Stream => "stream"
  | Typ.Name => "name"
  | Typ.Key => "key"
  | Typ.Nil => "nil"

/-- The outcome of running Go code: it returns, it stops with a run-time
panic, or the statement reached is not valid Go and has no outcome. -/
inductive Run (α : Type)
  | ret (a : α)
  | panic (msg : String)
  | invalid (msg : String)
  deriving Repr

/-- An `io.ReadCloser` holding a request or response body, given by the bytes
it has yet to deliver. -/
structure ReadCloser where
  unread : String
  deriving DecidableEq, Repr

/-- An `io.ReadSeeker` as built by `bytes.NewReader`, given by the bytes
between its read position and its end. -/
structure ReadSeeker where
  unread : String
  deriving DecidableEq, Repr

/-- The type `http.Header`, a `map[string][]string`: one entry per header name,
in the order in which a `range` visits them. -/
abbrev Header := List (String × List String)

/-- The struct `streamObj`; `rs = none` is the nil reader. -/
structure streamObj where
  rs : Option ReadSeeker
  deriving DecidableEq, Repr

/-- The struct `reqObj` with the fields of the embedded `*http.Request` that the
code names; `URL` is the text of the URL and `Body = none` is the nil body. -/
structure reqObj where
  Method : String
  Proto : String
  URL : String
  Header : Header
  Body : Option ReadCloser
  deriving DecidableEq, Repr

/-- The struct `respObj` with the fields of the embedded `*http.Response` that
the code reads; `Body = none` is the nil body. -/
structure respObj where
  Proto : String
  Status : String
  StatusCode : Int
  Header : Header
  Body : Option ReadCloser
  deriving DecidableEq, Repr

/-- The implementations of the interface `Object`.  The slice of an array and
the map of a hash are `none` when they are nil; a `map[string]Object` that is
not nil is a list of pairs with one pair per key; a file is its address and its
name. -/
inductive Object
  | nilObj
  | stringObj (value : String)
  | intObj (value : Int)
  | boolObj (value : Bool)
  | arrayObj (items : Option (List Object))
  | keyObj (name : String)
  | hashObj (pairs : Option (List (String × Object)))
  | fileObj (addr : Nat) (name : String)
  | streamObj (s : eval.streamObj)
  | reqObj (r : eval.reqObj)
  | respObj (r : eval.respObj)
  | nameObj (value : String)
  deriving Repr

/-- The method `Type` of each implementation. -/
def Object.Type : Object → Typ
  | Object.nilObj => Typ.Nil
  | Object.stringObj _ => Typ.String
  | Object.intObj _ => Typ.Int
  | Object.boolObj _ => Typ.Bool
  | Object.arrayObj _ => Typ.Array
  | Object.keyObj _ => Typ.Key
  | Object.hashObj _ => Typ.Hash
  | Object.fileObj _ _ => Typ.File
  | Object.streamObj _ => Typ.Stream
  | Object.reqObj _ => Typ.Request
  | Object.respObj _ => Typ.Response
  | Object.nameObj _ => Typ.Name

/-- The assignment `pairs[k] = v` on a map: the pair of `k` is replaced when
there is one and added otherwise. -/
def mapSet (k : String) (v : Object) : List (String × Object) → List (String × Object)
  | [] => [(k, v)]
  | (k0, v0) :: m => if k0 = k then (k, v) :: m else (k0, v0) :: mapSet k v m

/-- The lookup `pairs[k]` on a map. -/
def mapGet (k : String) : List (String × Object) → Option Object
  | [] => none
  | (k0, v0) :: m => if k0 = k then some v0 else mapGet k m

/-- Reading a body to its end, as `buf.ReadFrom`, `io.Copy` and `io.ReadAll`
do: the bytes that were left, and the reader at its end. -/
def ReadCloser.ReadAll (rc : ReadCloser) : String × ReadCloser :=
  (rc.unread, { unread := "" })

/-- Reading a seekable reader to its end, as `buf.ReadFrom` does. -/
def ReadSeeker.ReadAll (rs : ReadSeeker) : String × ReadSeeker :=
  (rs.unread, { unread := "" })

/-- The function `copyrc`: `buf.ReadFrom(rc)` drains `rc` into a fresh buffer,
and the two results read that buffer and a second buffer over the same bytes.
Neither is written to afterwards, so they are independent readers of what `rc`
had left.  The third component is `rc` after the call. -/
def copyrc (rc : ReadCloser) : (ReadCloser × ReadCloser) × ReadCloser :=
  let (buf, rc) := rc.ReadAll
  (({ unread := buf }, { unread := buf }), rc)

/-- The method `streamObj.String`, with the stream after the call: the empty
string for the nil reader, otherwise what `buf.ReadFrom(s.rs)` reads. -/
def streamObj.String (s : streamObj) : String × streamObj :=
  match s.rs with
  | none => ("", s)
  | some rs =>
    let (buf, rs) := rs.ReadAll
    (buf, { rs := some rs })

/-- The loop `for k, v := range h { hash.pairs[k] = stringObj{value: v[0]} }`
of both `Select` methods, on the pairs of the map that `make` returned; `v[0]`
panics on an empty slice. -/
def headerPairs : Header → List (String × Object) → Run (List (String × Object))
  | [], pairs => Run.ret pairs
  | (k, v) :: h, pairs =>
    match v with
    | [] => Run.panic "runtime error: index out of range [0] with length 0"
    | v0 :: _ => headerPairs h (mapSet k (Object.stringObj v0) pairs)

/-- The method `reqObj.Select`, with the state of the wrapped request after the
call.  In the `Body` case the wrapped body is first read to its end by `copyrc`
and then replaced by the first copy.  The statement of the case `"URL"`, line
192 of `object.go`, is `return stringObj(value: r.URL.String()}, nil`: the
literal is opened with a parenthesis and closed with a brace, which is not
valid Go, so the case has no outcome. -/
def reqObj.Select (r : reqObj) (obj : Object) : Run (Except String Object × reqObj) :=
  let typ := obj.Type
  if typ ≠ Typ.Name then
    Run.ret (Except.error ("cannot use type " ++ Type_String typ ++ " as selector"), r)
  else
    match obj with
    | Object.nameObj val =>
      match val with
      | "Method" => Run.ret (Except.ok (Object.stringObj r.Method), r)
      | "URL" => Run.invalid "object.go:192: syntax error"
      | "Header" =>
        match headerPairs r.Header [] with
        | Run.ret pairs => Run.ret (Except.ok (Object.hashObj (some pairs)), r)
        | Run.panic msg => Run.panic msg
        | Run.invalid msg => Run.invalid msg
      | "Body" =>
        match r.Body with
        | none => Run.ret (Except.ok (Object.streamObj { rs := none }), r)
        | some body =>
          let ((rc, rc2), body) := copyrc body
          let r := { r with Body := some body }
          let r := { r with Body := some rc }
          let (b, _) := rc2.ReadAll
          Run.ret (Except.ok (Object.streamObj { rs := some { unread := b } }), r)
      | _ =>
        Run.ret (Except.error
          ("type " ++ Type_String (Object.reqObj r).Type ++ " has no field " ++ val), r)
    | _ => Run.panic "interface conversion: Object is not nameObj"

/-- The method `respObj.Select`, with the state of the wrapped response after
the call. -/
def respObj.Select (r : respObj) (obj : Object) : Run (Except String Object × respObj) :=
  let typ := obj.Type
  if typ ≠ Typ.Name then
    Run.ret (Except.error ("cannot use type " ++ Type_String typ ++ " as selector"), r)
  else
    match obj with
    | Object.nameObj val =>
      match val with
      | "Status" => Run.ret (Except.ok (Object.stringObj r.Status), r)
      | "StatusCode" => Run.ret (Except.ok (Object.intObj r.StatusCode), r)
      | "Header" =>
        match headerPairs r.Header [] with
        | Run.ret pairs => Run.ret (Except.ok (Object.hashObj (some pairs)), r)
        | Run.panic msg => Run.panic msg
        | Run.invalid msg => Run.invalid msg
      | "Body" =>
        match r.Body with
        | none => Run.ret (Except.ok (Object.streamObj { rs := none }), r)
        | some body =>
          let ((rc, rc2), body) := copyrc body
          let r := { r with Body := some body }
          let r := { r with Body := some rc }
          let (b, _) := rc2.ReadAll
          Run.ret (Except.ok (Object.streamObj { rs := some { unread := b } }), r)
      | _ =>
        Run.ret (Except.error
          ("type " ++ Type_String (Object.respObj r).Type ++ " has no field " ++ val), r)
    | _ => Run.panic "interface conversion: Object is not nameObj"

/-- The method `reqObj.String`, with the state of the wrapped request after the
call.  `headerWrite h` is the text `h.Write` of `net/http` appends to the
buffer. -/
def reqObj.String (headerWrite : eval.Header → String) (r : reqObj) : Run (String × reqObj) :=
  let buf := r.Method ++ " " ++ r.Proto ++ "\n"
  let buf := buf ++ headerWrite r.Header
  match r.Body with
  | none => Run.ret (buf, r)
  | some body =>
    let buf := buf ++ "\n"
    let ((rc, rc2), body) := copyrc body
    let r := { r with Body := some body }
    let r := { r with Body := some rc }
    let (b, _) := rc2.ReadAll
    Run.ret (buf ++ b, r)

/-- The method `respObj.String`, with the state of the wrapped response after
the call.  `copyrc` is called whether or not there is a body, and
`buf.ReadFrom` on the nil body is a nil dereference. -/
def respObj.String (headerWrite : eval.Header → String) (r : respObj) : Run (String × respObj) :=
  let buf := r.Proto ++ " " ++ r.Status ++ "\n"
  match r.Body with
  | none => Run.panic "runtime error: invalid memory address or nil pointer dereference"
  | some body =>
    let ((rc, rc2), body) := copyrc body
    let r := { r with Body := some body }
    let r := { r with Body := some rc }
    let buf := buf ++ headerWrite r.Header
    let buf := buf ++ "\n"
    let (b, _) := rc2.ReadAll
    Run.ret (buf ++ b, r)

end eval

/-! ## Display of scalars, arrays, hashes and files -/

namespace eval

/-- The function `strconv.FormatInt(i, base)` for a base up to sixteen: the
digits of the absolute value, most significant first, after a minus sign when
`i` is negative. -/
def FormatInt (i : Int) (base : Nat) : String :=
  if i < 0 then "-" ++ (Nat.toDigits base i.natAbs).asString
  else (Nat.toDigits base i.natAbs).asString

/-- How `json.Marshal` writes one character of a string, with HTML escaping on:
the quote and the backslash get a backslash, the control characters 10, 13
and 9 and, in recent versions of Go, 8 and 12 their short form (earlier
versions write 8 and 12 like the next group), the other characters below 32
and `&`, `<`, `>` the form `\u00` with two hexadecimal digits, U+2028 and
U+2029 the same form with their four hexadecimal digits, and every other
character is copied. -/
def jsonEscape (c : Char) : String :=
  let n := c.toNat
  if n = 34 then "\\\""
  else if n = 92 then "\\\\"
  else if n = 8 then "\\b"
  else if n = 12 then "\\f"
  else if n = 10 then "\\n"
  else if n = 13 then "\\r"
  else if n = 9 then "\\t"
  else if n < 32 ∨ n = 38 ∨ n = 60 ∨ n = 62 then
    "\\u00" ++ String.mk [Nat.digitChar (n / 16), Nat.digitChar (n % 16)]
  else if n = 8232 then "\\u2028"
  else if n = 8233 then "\\u2029"
  else String.singleton c

/-- The text `json.Marshal` returns for a Go `string`: the escaped characters
between two quotes.  It has no error case. -/
def jsonString (s : String) : String :=
  "\"" ++ String.join (s.data.map jsonEscape) ++ "\""

/-- The method `stringObj.MarshalJSON`: `json.Marshal(s.value)`. -/
def stringObj.MarshalJSON (value : String) : Except String String :=
  Except.ok (jsonString value)

/-- The method `stringObj.String`. -/
def stringObj.String (value : String) : String := value

/-- The method `intObj.MarshalJSON`: `json.Marshal(i.value)`, the decimal text
of an `int64`. -/
def intObj.MarshalJSON (value : Int) : Except String String :=
  Except.ok (FormatInt value 10)

/-- The method `intObj.String`. -/
def intObj.String (value : Int) : String := FormatInt value 10

/-- The method `boolObj.MarshalJSON`: `json.Marshal(b.value)`. -/
def boolObj.MarshalJSON (value : Bool) : Except String String :=
  Except.ok (if value then "true" else "false")

/-- The method `boolObj.String`. -/
def boolObj.String (value : Bool) : String :=
  if value then "true" else "false"

/-- The method `nilObj.String`. -/
def nilObj.String : String := "<nil>"

/-- The method `keyObj.String`. -/
def keyObj.String (name : String) : String := name

/-- The method `nameObj.String`. -/
def nameObj.String (value : String) : String := value

/-- What `json.Marshal` writes for one element of a `[]Object` or of a
`map[string]Object`.  `stringObj`, `intObj` and `boolObj` implement
`json.Marshaler` and their `MarshalJSON` is called.  The other
implementations do not: each is encoded as a struct through its exported
fields.  `nilObj`, `arrayObj`, `keyObj`, `hashObj`, `fileObj`, `streamObj` and
`nameObj` have none and give the empty object; the embedded `*http.Request` of
a `reqObj` has the fields `GetBody`, a function, and `Cancel`, a channel, for
which there is no encoding; the encoding of the embedded `*http.Response` of a
`respObj` depends on fields that the model does not carry and is the parameter
`respJSON`. -/
def marshalObject (respJSON : respObj → Except String String) : Object → Except String String
  | Object.stringObj value => stringObj.MarshalJSON value
  | Object.intObj value => intObj.MarshalJSON value
  | Object.boolObj value => boolObj.MarshalJSON value
  | Object.reqObj _ => Except.error "json: unsupported type: func() (io.ReadCloser, error)"
  | Object.respObj r => respJSON r
  | _ => Except.ok "\x7b\x7d"

/-- The elements of a slice encoded in order; the first error ends the
encoding. -/
def marshalItems (respJSON : respObj → Except String String) :
    List Object → Except String (List String)
  | [] => Except.ok []
  | o :: os =>
    match marshalObject respJSON o with
    | Except.error e => Except.error e
    | Except.ok b =>
      match marshalItems respJSON os with
      | Except.error e => Except.error e
      | Except.ok bs => Except.ok (b :: bs)

/-- The call `json.Marshal(a.items)`: `null` for the nil slice, otherwise the
encoded elements between brackets, separated by commas. -/
def marshalSlice (respJSON : respObj → Except String String) :
    Option (List Object) → Except String String
  | none => Except.ok "null"
  | some items =>
    match marshalItems respJSON items with
    | Except.error e => Except.error e
    | Except.ok bs => Except.ok ("[" ++ String.intercalate "," bs ++ "]")

/-- The method `arrayObj.String`. -/
def arrayObj.String (respJSON : respObj → Except String String)
    (items : Option (List Object)) : String :=
  match marshalSlice respJSON items with
  | Except.error _ => "[]"
  | Except.ok b => b

/-- The order in which `json.Marshal` sorts the keys of a map, on the
characters of two keys: `keyLess a b` when `a` is before `b` byte by byte,
which on UTF-8 text is character by character. -/
def keyLess : List Char → List Char → Bool
  | _, [] => false
  | [], _ :: _ => true
  | a :: as, b :: bs =>
    if a.toNat < b.toNat then true
    else if b.toNat < a.toNat then false
    else keyLess as bs

/-- The pairs of a map sorted by key, as `json.Marshal` sorts them before it
writes them. -/
def sortPairs (pairs : List (String × Object)) : List (String × Object) :=
  List.insertionSort (fun p q => keyLess q.1.data p.1.data = false) pairs

/-- The members of an object encoded in order, each as its key, a colon and its
value; the first error ends the encoding. -/
def marshalMembers (respJSON : respObj → Except String String) :
    List (String × Object) → Except String (List String)
  | [] => Except.ok []
  | (k, v) :: m =>
    match marshalObject respJSON v with
    | Except.error e => Except.error e
    | Except.ok b =>
      match marshalMembers respJSON m with
      | Except.error e => Except.error e
      | Except.ok bs => Except.ok ((jsonString k ++ ":" ++ b) :: bs)

/-- The call `json.Marshal(h.pairs)`: `null` for the nil map, otherwise the
encoded members between braces, sorted by key and separated by commas. -/
def marshalMap (respJSON : respObj → Except String String) :
    Option (List (String × Object)) → Except String String
  | none => Except.ok "null"
  | some pairs =>
    match marshalMembers respJSON (sortPairs pairs) with
    | Except.error e => Except.error e
    | Except.ok bs => Except.ok ("\x7b" ++ String.intercalate "," bs ++ "\x7d")

/-- The method `hashObj.String`. -/
def hashObj.String (respJSON : respObj → Except String String)
    (pairs : Option (List (String × Object))) : String :=
  match marshalMap respJSON pairs with
  | Except.error _ => "\x7b\x7d"
  | Except.ok b => b

/-- The verb `%p` of `fmt` on the address of a pointer: `0x` and the address
in lower-case hexadecimal. -/
def fmtPointer (addr : Nat) : String :=
  "0x" ++ (Nat.toDigits 16 addr).asString

/-- The method `fileObj.String`: `fmt.Sprintf("File<addr=%p, name=%q>", f.File,
f.Name())`.  `quote s` is the text the verb `%q` writes for the string `s`. -/
def fileObj.String (quote : String → String) (addr : Nat) (name : String) : String :=
  "File<addr=" ++ fmtPointer addr ++ ", name=" ++ quote name ++ ">"

/-- The value of a hexadecimal digit, zero for any other character. -/
def digitVal (c : Char) : Nat :=
  let n := c.toNat
  if 48 ≤ n ∧ n ≤ 57 then n - 48
  else if 97 ≤ n ∧ n ≤ 102 then n - 87
  else 0

/-- The number that a list of digits writes in a base, most significant digit
first. -/
def digitsValue (base : Nat) (cs : List Char) : Nat :=
  Nat.ofDigits base (cs.map digitVal).reverse

/-- The elements of a slice, those a `range` over it visits: none for the nil
slice. -/
def sliceItems : Option (List Object) → List Object
  | none => []
  | some items => items

/-- The pairs of a map, those a `range` over it visits: none for the nil
map. -/
def mapPairs : Option (List (String × Object)) → List (String × Object)
  | none => []
  | some pairs => pairs

/-- The values that are a `stringObj`, an `intObj` or a `boolObj`. -/
def isScalar : Object → Bool
  | Object.stringObj _ => true
  | Object.intObj _ => true
  | Object.boolObj _ => true
  | _ => false

/-- The base-10 text of an integer as the specification words it: the decimal
digits of the absolute value, most significant first, a single `0` for zero,
after a `-` when the integer is negative. -/
def decimalText (n : Int) : String :=
  let ds := (Nat.digits 10 n.natAbs).reverse.map fun d => Char.ofNat (48 + d)
  let ds := if ds = [] then [Char.ofNat 48] else ds
  if n < 0 then String.mk (Char.ofNat 45 :: ds) else String.mk ds

/-- The JSON text of a scalar as the specification words it: a string as a JSON
string literal, an integer as its decimal number, a boolean as `true` or
`false`. -/
def scalarJSON : Object → String
  | Object.stringObj s => jsonString s
  | Object.intObj n => decimalText n
  | Object.boolObj b => if b then "true" else "false"
  | _ => ""

end eval

/-! ## Sample inputs -/

namespace value

/-- A sample dispatch for the alternatives of a tuple: booleans compare by
equality with booleans, every other pair of operands is an error without a
value. -/
def sampleCmp : Value → Op → Value → Result
  | Value.Bool x, _, Value.Bool y => (some (Value.Bool (x == y)), none)
  | _, _, _ => (none, some "invalid operation")

/-- A sample error constructor. -/
def sampleOpError (op : Op) (t : valueType) : error :=
  match t with
  | valueType.tupleType => "invalid operation on tuple: " ++ toString op
  | valueType.otherType n => "invalid operation on type " ++ toString n ++ ": " ++ toString op

end value

namespace eval

/-- A sample rendering of a header collection, one line per value. -/
def sampleHeaderWrite : Header → String
  | [] => ""
  | (k, vs) :: h =>
    String.join (vs.map fun v => k ++ ": " ++ v ++ "\r\n") ++ sampleHeaderWrite h

/-- A request with two headers, one of them with two values, and a body. -/
def sampleReq : reqObj :=
  { Method := "POST", Proto := "HTTP/1.1", URL := "https://example.com/items?id=1",
    Header := [("Accept", ["text/html", "application/json"]), ("Content-Type", ["text/plain"])],
    Body := some { unread := "hello" } }

/-- A response with two headers, one of them with two values, and a body. -/
def sampleResp : respObj :=
  { Proto := "HTTP/1.1", Status := "200 OK", StatusCode := 200,
    Header := [("Content-Type", ["text/plain"]), ("Set-Cookie", ["a=1", "b=2"])],
    Body := some { unread := "hello" } }

/-- A request without a body. -/
def bodilessReq : reqObj :=
  { Method := "GET", Proto := "HTTP/1.1", URL := "https://example.com/", Header := [],
    Body := none }

/-- A response without a body. -/
def bodilessResp : respObj :=
  { Proto := "HTTP/1.1", Status := "204 No Content", StatusCode := 204, Header := [],
    Body := none }

/-- A request in which the header `X-Empty` is present with no value. -/
def emptyHeaderReq : reqObj :=
  { Method := "GET", Proto := "HTTP/1.1", URL := "https://example.com/",
    Header := [("Accept", ["text/html"]), ("X-Empty", [])], Body := none }

/-- A response in which the header `X-Empty` is present with no value. -/
def emptyHeaderResp : respObj :=
  { Proto := "HTTP/1.1", Status := "200 OK", StatusCode := 200,
    Header := [("Accept", ["text/html"]), ("X-Empty", [])], Body := some { unread := "" } }

/-- A sample encoding of responses: the response carries the request it
answers, for which there is no encoding. -/
def sampleRespJSON : respObj → Except String String :=
  fun _ => Except.error "json: unsupported type: func() (io.ReadCloser, error)"

/-- A sample of the verb `%q`, right for names without a quote, a backslash or
an unprintable character. -/
def sampleQuote (s : String) : String := "\"" ++ s ++ "\""

/-- The array of the integers 1, 2, 3, 4. -/
def intArray : Option (List Object) :=
  some [Object.intObj 1, Object.intObj 2, Object.intObj 3, Object.intObj 4]

/-- The array of the strings `one`, `two`, `three`. -/
def stringArray : Option (List Object) :=
  some [Object.stringObj "one", Object.stringObj "two", Object.stringObj "three"]

/-- An array of a string with characters to escape, a negative integer and a
boolean. -/
def mixedArray : List Object :=
  [Object.stringObj "a<b", Object.intObj (-7), Object.boolObj false]

/-- An array that holds a request. -/
def requestArray : Option (List Object) :=
  some [Object.intObj 1, Object.reqObj sampleReq]

/-- A hash that holds a request. -/
def requestHash : Option (List (String × Object)) :=
  some [("Number", Object.intObj 10), ("Request", Object.reqObj sampleReq)]

/-- The hash that binds `Child` to the hash that binds `Array` to the array of
the strings `one`, `two`, `three`. -/
def nestedHash : Option (List (String × Object)) :=
  some [("Child", Object.hashObj (some [("Array", Object.arrayObj stringArray)]))]

/-- An array whose only element is the array of the integers 1, 2, 3, 4. -/
def nestedArray : Option (List Object) :=
  some [Object.arrayObj intArray]

/-- A hash of three scalars, its keys out of order. -/
def scalarHash : List (String × Object) :=
  [("String", Object.stringObj "string"), ("Bool", Object.boolObj true),
    ("Number", Object.intObj 10)]

/-- The pairs of `scalarHash` in another order. -/
def scalarHashShuffled : List (String × Object) :=
  [("Number", Object.intObj 10), ("String", Object.stringObj "string"),
    ("Bool", Object.boolObj true)]

end eval

/-! ## Tuple comparison -/

namespace value

/-- C1. When `T1.cmp(op, b)` yields a `Bool` whose value is true, `Tuple.cmp`
succeeds and returns exactly that result with a nil error, whatever the call on
`T2` would return. -/
theorem Tuple_cmp_first_true (vcmp : Value → Op → Value → Result)
    (opError : Op → valueType → error) (t : Tuple) (op : Op) (b : Value)
    (h : (vcmp t.T1 op b).1 = some (Value.Bool true)) :
    Tuple.cmp vcmp opError t op b = ((vcmp t.T1 op b).1, none) ∧
      Tuple.cmp vcmp opError t op b = (some (Value.Bool true), none) := by
  simp [Tuple.cmp, Tuple.cmpLoop, h]

/-- The short-circuit at a tuple whose second alternative cannot be compared
with the operand. -/
theorem Tuple_cmp_first_true_witness :
    (sampleCmp (Value.Bool true) 0 (Value.Bool true)).1 = some (Value.Bool true) ∧
    sampleCmp (Value.other 7) 0 (Value.Bool true) = (none, some "invalid operation") ∧
    Tuple.cmp sampleCmp sampleOpError ⟨Value.Bool true, Value.other 7⟩ 0 (Value.Bool true)
      = (some (Value.Bool true), none) :=
  ⟨by decide, by decide,
    (Tuple_cmp_first_true sampleCmp sampleOpError ⟨Value.Bool true, Value.other 7⟩ 0
      (Value.Bool true) (by decide)).2⟩

/-- C2, as stated, fails: with both alternatives `Bool true` and the operand
`Bool false`, the first call is not a true `Bool`, the second succeeds with
`Bool false`, and `Tuple.cmp` returns no value and the tuple operator error
instead of `Bool false`. -/
theorem Tuple_cmp_second_false_fails :
    (sampleCmp (Value.Bool true) 0 (Value.Bool false)).1 ≠ some (Value.Bool true) ∧
    sampleCmp (Value.Bool true) 0 (Value.Bool false) = (some (Value.Bool false), none) ∧
    Tuple.cmp sampleCmp sampleOpError ⟨Value.Bool true, Value.Bool true⟩ 0 (Value.Bool false)
      = (none, some (sampleOpError 0 valueType.tupleType)) ∧
    Tuple.cmp sampleCmp sampleOpError ⟨Value.Bool true, Value.Bool true⟩ 0 (Value.Bool false)
      ≠ (some (Value.Bool false), none) := by
  refine ⟨by decide, by decide, by decide, by decide⟩

/-- C2, amended. When `T1.cmp(op, b)` is not a true `Bool` and `T2.cmp(op, b)`
succeeds with a `Bool` `v`: if `v` is true, `Tuple.cmp` succeeds and returns it;
if `v` is false, `Tuple.cmp` returns no value and fails with
`opError(op, tupleType)`. -/
theorem Tuple_cmp_second (vcmp : Value → Op → Value → Result)
    (opError : Op → valueType → error) (t : Tuple) (op : Op) (b : Value) (v : Bool)
    (h1 : (vcmp t.T1 op b).1 ≠ some (Value.Bool true))
    (h2 : vcmp t.T2 op b = (some (Value.Bool v), none)) :
    Tuple.cmp vcmp opError t op b =
      if v = true then (some (Value.Bool true), none)
      else (none, some (opError op valueType.tupleType)) := by
  cases v <;> simp only [Tuple.cmp, Tuple.cmpLoop, h2] <;> split <;> simp_all

/-- The amended C2 at a tuple whose first alternative cannot be compared and
whose second compares false. -/
theorem Tuple_cmp_second_witness :
    (sampleCmp (Value.other 7) 0 (Value.Bool false)).1 ≠ some (Value.Bool true) ∧
    sampleCmp (Value.Bool true) 0 (Value.Bool false) = (some (Value.Bool false), none) ∧
    Tuple.cmp sampleCmp sampleOpError ⟨Value.other 7, Value.Bool true⟩ 0 (Value.Bool false)
      = (none, some (sampleOpError 0 valueType.tupleType)) :=
  ⟨by decide, by decide,
    Tuple_cmp_second sampleCmp sampleOpError ⟨Value.other 7, Value.Bool true⟩ 0
      (Value.Bool false) false (by decide) (by decide)⟩

/-- C3. When both `T1.cmp(op, b)` and `T2.cmp(op, b)` return an error (no value
and a non-nil error), `Tuple.cmp` returns no value and the error
`opError(op, tupleType)`, whatever the two errors are. -/
theorem Tuple_cmp_both_error (vcmp : Value → Op → Value → Result)
    (opError : Op → valueType → error) (t : Tuple) (op : Op) (b : Value) (e1 e2 : error)
    (h1 : vcmp t.T1 op b = (none, some e1)) (h2 : vcmp t.T2 op b = (none, some e2)) :
    Tuple.cmp vcmp opError t op b = (none, some (opError op valueType.tupleType)) := by
  simp [Tuple.cmp, Tuple.cmpLoop, h1, h2]

/-- C3 at a tuple neither alternative of which can be compared with a
boolean. -/
theorem Tuple_cmp_both_error_witness :
    sampleCmp (Value.other 1) 3 (Value.Bool true) = (none, some "invalid operation") ∧
    sampleCmp (Value.other 2) 3 (Value.Bool true) = (none, some "invalid operation") ∧
    Tuple.cmp sampleCmp sampleOpError ⟨Value.other 1, Value.other 2⟩ 3 (Value.Bool true)
      = (none, some (sampleOpError 3 valueType.tupleType)) :=
  ⟨by decide, by decide,
    Tuple_cmp_both_error sampleCmp sampleOpError ⟨Value.other 1, Value.other 2⟩ 3
      (Value.Bool true) "invalid operation" "invalid operation" (by decide) (by decide)⟩

end value

/-! ## Selection and display of requests and responses -/

namespace eval

/-- Reading `pairs[k]` after the assignment `pairs[k2] = v`. -/
theorem mapGet_mapSet (k k2 : String) (v : Object) (m : List (String × Object)) :
    mapGet k (mapSet k2 v m) = if k2 = k then some v else mapGet k m := by
  induction m with
  | nil => simp [mapSet, mapGet]
  | cons kv m ih =>
    obtain ⟨k0, v0⟩ := kv
    by_cases h0 : k0 = k2
    · by_cases h : k2 = k <;> simp [mapSet, mapGet, h0, h]
    · by_cases h : k2 = k
      · subst h
        simp [mapSet, mapGet, h0, ih]
      · by_cases h3 : k0 = k
        · subst h3
          simp [mapSet, mapGet, h0, h]
        · simp [mapSet, mapGet, h0, h, h3, ih]

/-- The header loop on a collection with one entry per name and at least one
value under every name: it ends without a panic, and the map it returns binds
each header name to the first value of its list and leaves the other keys as
they were. -/
theorem headerPairs_spec (h : Header) (hne : ∀ kv ∈ h, kv.2 ≠ [])
    (hnd : (h.map Prod.fst).Nodup) (pairs : List (String × Object)) :
    ∃ out, headerPairs h pairs = Run.ret out ∧
      ∀ k, mapGet k out =
        match h.lookup k with
        | some v => some (Object.stringObj (v.headD ""))
        | none => mapGet k pairs := by
  induction h generalizing pairs with
  | nil => exact ⟨pairs, rfl, fun k => by simp [List.lookup]⟩
  | cons kv h ih =>
    obtain ⟨k0, v⟩ := kv
    cases v with
    | nil => exact absurd rfl (hne (k0, []) (List.mem_cons_self _ _))
    | cons v0 vs =>
      have hnd2 : (h.map Prod.fst).Nodup := (List.nodup_cons.mp hnd).2
      have hk0 : k0 ∉ h.map Prod.fst := (List.nodup_cons.mp hnd).1
      obtain ⟨out, hout, hget⟩ :=
        ih (fun kv hkv => hne kv (List.mem_cons_of_mem _ hkv)) hnd2
          (mapSet k0 (Object.stringObj v0) pairs)
      refine ⟨out, by simpa [headerPairs] using hout, fun k => ?_⟩
      rw [hget k]
      by_cases hk : k = k0
      · subst hk
        have hl : h.lookup k = none := by
          rw [List.lookup_eq_none_iff]
          intro p hp
          have hpk : p.1 ≠ k := fun e => hk0 (List.mem_map.mpr ⟨p, hp, e⟩)
          simpa using fun e => hpk e.symm
        simp [List.lookup, hl, mapGet_mapSet]
      · have hk2 : (k == k0) = false := by simpa using hk
        have hk3 : ¬ k0 = k := fun e => hk e.symm
        simp only [List.lookup, hk2, mapGet_mapSet, hk3, if_false]

/-- The header case of both `Select` methods on a collection with one entry
per name and at least one value under every name: the call succeeds, leaves the
wrapped object as it was, and returns a hash whose keys are the header names,
each bound to the `stringObj` of the first value of its list. -/
theorem Select_Header_first_values (r : reqObj) (p : respObj) (h : Header)
    (hr : r.Header = h) (hp : p.Header = h) (hne : ∀ kv ∈ h, kv.2 ≠ [])
    (hnd : (h.map Prod.fst).Nodup) :
    ∃ out,
      reqObj.Select r (Object.nameObj "Header")
        = Run.ret (Except.ok (Object.hashObj (some out)), r) ∧
      respObj.Select p (Object.nameObj "Header")
        = Run.ret (Except.ok (Object.hashObj (some out)), p) ∧
      ∀ k, mapGet k out = (h.lookup k).map fun v => Object.stringObj (v.headD "") := by
  obtain ⟨out, hout, hget⟩ := headerPairs_spec h hne hnd []
  refine ⟨out, ?_, ?_, fun k => ?_⟩
  · simp [reqObj.Select, Object.Type, hr, hout]
  · simp [respObj.Select, Object.Type, hp, hout]
  · rw [hget k]
    cases h.lookup k <;> simp [mapGet]

/-- C4. For a request and a response whose body holds the content `c`, `Select`
with the name `Body` returns a stream that renders as `c` and leaves a body
holding `c`, and a second `Select` with the name `Body` on the object so left
returns a stream that again renders as `c`. -/
theorem Select_Body_copy_on_read (r : reqObj) (p : respObj) (c : String)
    (hr : r.Body = some { unread := c }) (hp : p.Body = some { unread := c }) :
    (∃ s1 r1 s2 r2,
        reqObj.Select r (Object.nameObj "Body")
          = Run.ret (Except.ok (Object.streamObj s1), r1) ∧
        (streamObj.String s1).1 = c ∧
        r1.Body = some { unread := c } ∧
        reqObj.Select r1 (Object.nameObj "Body")
          = Run.ret (Except.ok (Object.streamObj s2), r2) ∧
        (streamObj.String s2).1 = c) ∧
      (∃ s1 p1 s2 p2,
        respObj.Select p (Object.nameObj "Body")
          = Run.ret (Except.ok (Object.streamObj s1), p1) ∧
        (streamObj.String s1).1 = c ∧
        p1.Body = some { unread := c } ∧
        respObj.Select p1 (Object.nameObj "Body")
          = Run.ret (Except.ok (Object.streamObj s2), p2) ∧
        (streamObj.String s2).1 = c) := by
  constructor
  · refine ⟨{ rs := some { unread := c } }, { r with Body := some { unread := c } },
      { rs := some { unread := c } }, { r with Body := some { unread := c } }, ?_⟩
    simp [reqObj.Select, Object.Type, hr, copyrc, ReadCloser.ReadAll, ReadSeeker.ReadAll,
      streamObj.String]
  · refine ⟨{ rs := some { unread := c } }, { p with Body := some { unread := c } },
      { rs := some { unread := c } }, { p with Body := some { unread := c } }, ?_⟩
    simp [respObj.Select, Object.Type, hp, copyrc, ReadCloser.ReadAll, ReadSeeker.ReadAll,
      streamObj.String]

/-- C4 at the sample request and response, whose bodies hold `hello`. -/
theorem Select_Body_copy_on_read_witness :
    sampleReq.Body = some { unread := "hello" } ∧
    sampleResp.Body = some { unread := "hello" } ∧
    ∃ s1 r1 s2 r2,
      reqObj.Select sampleReq (Object.nameObj "Body")
        = Run.ret (Except.ok (Object.streamObj s1), r1) ∧
      (streamObj.String s1).1 = "hello" ∧
      r1.Body = some { unread := "hello" } ∧
      reqObj.Select r1 (Object.nameObj "Body")
        = Run.ret (Except.ok (Object.streamObj s2), r2) ∧
      (streamObj.String s2).1 = "hello" :=
  ⟨rfl, rfl, (Select_Body_copy_on_read sampleReq sampleResp "hello" rfl rfl).1⟩

/-- C5. For a request and a response whose body holds the content `c`,
`String()` returns a text that ends with `c` and leaves a body holding `c`; a
second `String()` returns the same text and again leaves a body holding `c`,
and a `Select` with the name `Body` that follows returns a stream that renders
as `c`. -/
theorem String_keeps_body (headerWrite : Header → String) (r : reqObj) (p : respObj)
    (c : String) (hr : r.Body = some { unread := c }) (hp : p.Body = some { unread := c }) :
    (∃ text r1 r2,
        reqObj.String headerWrite r = Run.ret (text, r1) ∧
        (∃ pre, text = pre ++ c) ∧
        r1.Body = some { unread := c } ∧
        reqObj.String headerWrite r1 = Run.ret (text, r2) ∧
        r2.Body = some { unread := c } ∧
        ∃ s r3,
          reqObj.Select r2 (Object.nameObj "Body")
            = Run.ret (Except.ok (Object.streamObj s), r3) ∧
          (streamObj.String s).1 = c) ∧
      (∃ text p1 p2,
        respObj.String headerWrite p = Run.ret (text, p1) ∧
        (∃ pre, text = pre ++ c) ∧
        p1.Body = some { unread := c } ∧
        respObj.String headerWrite p1 = Run.ret (text, p2) ∧
        p2.Body = some { unread := c } ∧
        ∃ s p3,
          respObj.Select p2 (Object.nameObj "Body")
            = Run.ret (Except.ok (Object.streamObj s), p3) ∧
          (streamObj.String s).1 = c) := by
  constructor
  · refine ⟨r.Method ++ " " ++ r.Proto ++ "\n" ++ headerWrite r.Header ++ "\n" ++ c,
      { r with Body := some { unread := c } }, { r with Body := some { unread := c } },
      ?_, ⟨_, rfl⟩, rfl, ?_, rfl,
      { rs := some { unread := c } }, { r with Body := some { unread := c } }, ?_, ?_⟩
    · simp [reqObj.String, hr, copyrc, ReadCloser.ReadAll]
    · simp [reqObj.String, copyrc, ReadCloser.ReadAll]
    · simp [reqObj.Select, Object.Type, copyrc, ReadCloser.ReadAll]
    · simp [streamObj.String, ReadSeeker.ReadAll]
  · refine ⟨p.Proto ++ " " ++ p.Status ++ "\n" ++ headerWrite p.Header ++ "\n" ++ c,
      { p with Body := some { unread := c } }, { p with Body := some { unread := c } },
      ?_, ⟨_, rfl⟩, rfl, ?_, rfl,
      { rs := some { unread := c } }, { p with Body := some { unread := c } }, ?_, ?_⟩
    · simp [respObj.String, hp, copyrc, ReadCloser.ReadAll]
    · simp [respObj.String, copyrc, ReadCloser.ReadAll]
    · simp [respObj.Select, Object.Type, copyrc, ReadCloser.ReadAll]
    · simp [streamObj.String, ReadSeeker.ReadAll]

/-- C5 at the sample response, whose body holds `hello`. -/
theorem String_keeps_body_witness :
    sampleReq.Body = some { unread := "hello" } ∧
    sampleResp.Body = some { unread := "hello" } ∧
    ∃ text p1 p2,
      respObj.String sampleHeaderWrite sampleResp = Run.ret (text, p1) ∧
      (∃ pre, text = pre ++ "hello") ∧
      p1.Body = some { unread := "hello" } ∧
      respObj.String sampleHeaderWrite p1 = Run.ret (text, p2) ∧
      p2.Body = some { unread := "hello" } ∧
      ∃ s p3,
        respObj.Select p2 (Object.nameObj "Body")
          = Run.ret (Except.ok (Object.streamObj s), p3) ∧
        (streamObj.String s).1 = "hello" :=
  ⟨rfl, rfl, (String_keeps_body sampleHeaderWrite sampleReq sampleResp "hello" rfl rfl).2⟩

/-- C6. For a request and a response whose body is nil, `Select` with the name
`Body` returns without an error the stream that has no reader and leaves the
wrapped object as it was, and that stream displays as the empty string. -/
theorem Select_Body_nil (r : reqObj) (p : respObj) (hr : r.Body = none) (hp : p.Body = none) :
    reqObj.Select r (Object.nameObj "Body")
        = Run.ret (Except.ok (Object.streamObj { rs := none }), r) ∧
      respObj.Select p (Object.nameObj "Body")
        = Run.ret (Except.ok (Object.streamObj { rs := none }), p) ∧
      streamObj.String { rs := none } = ("", { rs := none }) := by
  simp [reqObj.Select, respObj.Select, Object.Type, hr, hp, streamObj.String]

/-- C6 at the request and the response without a body. -/
theorem Select_Body_nil_witness :
    bodilessReq.Body = none ∧ bodilessResp.Body = none ∧
    reqObj.Select bodilessReq (Object.nameObj "Body")
      = Run.ret (Except.ok (Object.streamObj { rs := none }), bodilessReq) ∧
    respObj.Select bodilessResp (Object.nameObj "Body")
      = Run.ret (Except.ok (Object.streamObj { rs := none }), bodilessResp) :=
  ⟨rfl, rfl, (Select_Body_nil bodilessReq bodilessResp rfl rfl).1,
    (Select_Body_nil bodilessReq bodilessResp rfl rfl).2.1⟩

/-- C7. On a request and on a response in which the header `X-Empty` is present
with an empty list of values, `Select` with the name `Header` does not succeed:
`v[0]` stops the program with an index-out-of-range panic. -/
theorem Select_Header_empty_list_panics :
    reqObj.Select emptyHeaderReq (Object.nameObj "Header")
        = Run.panic "runtime error: index out of range [0] with length 0" ∧
      respObj.Select emptyHeaderResp (Object.nameObj "Header")
        = Run.panic "runtime error: index out of range [0] with length 0" :=
  ⟨rfl, rfl⟩

/-- C8. A name that is not one of `Method`, `URL`, `Header`, `Body` makes
`Select` on a request fail with `type request has no field` followed by the
name, and a name that is not one of `Status`, `StatusCode`, `Header`, `Body`
makes `Select` on a response fail with `type response has no field` followed by
the name; the wrapped object is left as it was. -/
theorem Select_unknown_field (r : reqObj) (p : respObj) (val : String) :
    (val ∉ ["Method", "URL", "Header", "Body"] →
      reqObj.Select r (Object.nameObj val)
        = Run.ret (Except.error ("type request has no field " ++ val), r)) ∧
    (val ∉ ["Status", "StatusCode", "Header", "Body"] →
      respObj.Select p (Object.nameObj val)
        = Run.ret (Except.error ("type response has no field " ++ val), p)) := by
  constructor
  · intro h
    simp only [List.mem_cons, List.mem_singleton, List.not_mem_nil, or_false, not_or] at h
    obtain ⟨h1, h2, h3, h4⟩ := h
    simp [reqObj.Select, Object.Type, Type_String]
  · intro h
    simp only [List.mem_cons, List.mem_singleton, List.not_mem_nil, or_false, not_or] at h
    obtain ⟨h1, h2, h3, h4⟩ := h
    simp [respObj.Select, Object.Type, Type_String]

/-- C8 at the lower-case name `body` on a request and at the request field
`Method` on a response. -/
theorem Select_unknown_field_witness :
    "body" ∉ ["Method", "URL", "Header", "Body"] ∧
    "Method" ∉ ["Status", "StatusCode", "Header", "Body"] ∧
    reqObj.Select sampleReq (Object.nameObj "body")
      = Run.ret (Except.error "type request has no field body", sampleReq) ∧
    respObj.Select sampleResp (Object.nameObj "Method")
      = Run.ret (Except.error "type response has no field Method", sampleResp) :=
  ⟨by decide, by decide,
    (Select_unknown_field sampleReq sampleResp "body").1 (by decide),
    (Select_unknown_field sampleReq sampleResp "Method").2 (by decide)⟩

/-- C9. A key whose type is not `Name` makes `Select` on a request and on a
response fail with `cannot use type`, the name of the type and `as selector`,
and the wrapped object is left as it was. -/
theorem Select_rejects_non_Name (r : reqObj) (p : respObj) (obj : Object)
    (h : obj.Type ≠ Typ.Name) :
    reqObj.Select r obj
        = Run.ret (Except.error ("cannot use type " ++ Type_String obj.Type ++ " as selector"),
            r) ∧
      respObj.Select p obj
        = Run.ret (Except.error ("cannot use type " ++ Type_String obj.Type ++ " as selector"),
            p) := by
  simp [reqObj.Select, respObj.Select, h]

/-- C9 at a key and at a string that hold the field name `Body`. -/
theorem Select_rejects_non_Name_witness :
    (Object.keyObj "Body").Type ≠ Typ.Name ∧ (Object.stringObj "Body").Type ≠ Typ.Name ∧
    reqObj.Select sampleReq (Object.keyObj "Body")
      = Run.ret (Except.error "cannot use type key as selector", sampleReq) ∧
    respObj.Select sampleResp (Object.stringObj "Body")
      = Run.ret (Except.error "cannot use type string as selector", sampleResp) :=
  ⟨by decide, by decide,
    (Select_rejects_non_Name sampleReq sampleResp (Object.keyObj "Body") (by decide)).1,
    (Select_rejects_non_Name sampleReq sampleResp (Object.stringObj "Body") (by decide)).2⟩

/-- C10. On a request, `Select` with the name `URL` returns no value: the
statement of that case is not valid Go.  The other scalar cases are as the
claim says: on a request the name `Method` gives the `stringObj` of the method,
on a response the name `Status` gives the `stringObj` of the status and the
name `StatusCode` the `intObj` of the status code, and each leaves the wrapped
object, its body included, as it was. -/
theorem Select_URL_case_invalid (r : reqObj) (p : respObj) :
    reqObj.Select r (Object.nameObj "URL") = Run.invalid "object.go:192: syntax error" ∧
      reqObj.Select r (Object.nameObj "Method")
        = Run.ret (Except.ok (Object.stringObj r.Method), r) ∧
      respObj.Select p (Object.nameObj "Status")
        = Run.ret (Except.ok (Object.stringObj p.Status), p) ∧
      respObj.Select p (Object.nameObj "StatusCode")
        = Run.ret (Except.ok (Object.intObj p.StatusCode), p) := by
  simp [reqObj.Select, respObj.Select, Object.Type]

end eval

/-! ## Display of scalars -/

namespace eval

/-- The digits that `Nat.toDigitsCore` puts in front of its accumulator are the
digits of the number, most significant first. -/
theorem toDigitsCore_eq_digits (b : Nat) (hb : 1 < b) :
    ∀ (fuel n : Nat) (ds : List Char), 0 < n → n < fuel →
      Nat.toDigitsCore b fuel n ds = (Nat.digits b n).reverse.map Nat.digitChar ++ ds := by
  intro fuel
  induction fuel with
  | zero => intro n ds _ h; omega
  | succ fuel ih =>
    intro n ds hn hlt
    rw [Nat.digits_def' hb hn]
    by_cases h0 : n / b = 0
    · simp [Nat.toDigitsCore, h0]
    · have hpos : 0 < n / b := Nat.pos_of_ne_zero h0
      have hdiv : n / b < n := Nat.div_lt_self hn hb
      have hrec := ih (n / b) (Nat.digitChar (n % b) :: ds) hpos (by omega)
      simp [Nat.toDigitsCore, h0, hrec]

/-- The digits of a positive number as `Nat.toDigits` lists them. -/
theorem toDigits_eq_digits (b : Nat) (hb : 1 < b) (n : Nat) (hn : 0 < n) :
    Nat.toDigits b n = (Nat.digits b n).reverse.map Nat.digitChar := by
  have h := toDigitsCore_eq_digits b hb (n + 1) n [] hn (Nat.lt_succ_self n)
  simpa [Nat.toDigits] using h

/-- A decimal digit is written as the character `0` moved up by the digit. -/
theorem digitChar_decimal (d : Nat) (hd : d < 10) : Nat.digitChar d = Char.ofNat (48 + d) := by
  interval_cases d <;> rfl

/-- The method `intObj.String` writes the decimal text of the integer. -/
theorem FormatInt_eq_decimalText (n : Int) : FormatInt n 10 = decimalText n := by
  by_cases h0 : n.natAbs = 0
  · have hn : n = 0 := Int.natAbs_eq_zero.mp h0
    subst hn
    simp [FormatInt, decimalText]
    rfl
  · have hpos : 0 < n.natAbs := Nat.pos_of_ne_zero h0
    have hmap : (Nat.digits 10 n.natAbs).reverse.map Nat.digitChar
        = (Nat.digits 10 n.natAbs).reverse.map fun d => Char.ofNat (48 + d) := by
      apply List.map_congr_left
      intro d hd
      exact digitChar_decimal d (Nat.digits_lt_base (by norm_num) (List.mem_reverse.mp hd))
    have hne : (Nat.digits 10 n.natAbs).reverse.map (fun d => Char.ofNat (48 + d)) ≠ [] := by
      simp [Nat.digits_ne_nil_iff_ne_zero, h0]
    unfold FormatInt decimalText
    rw [toDigits_eq_digits 10 (by norm_num) _ hpos, hmap]
    simp only [hne, if_false]
    split <;> rfl

/-- C11. The display of a `stringObj` is its string unchanged, the display of
an `intObj` is the decimal text of its integer, with a minus sign when it is
negative, and the display of a `boolObj` is `true` or `false`; the string
`string` displays as `string`, the integer 10 as `10` and the boolean true as
`true`. -/
theorem scalar_display (s : String) (n : Int) (b : Bool) :
    stringObj.String s = s ∧
      intObj.String n = decimalText n ∧
      boolObj.String b = (if b = true then "true" else "false") ∧
      stringObj.String "string" = "string" ∧
      intObj.String 10 = "10" ∧
      intObj.String (-10) = "-10" ∧
      boolObj.String true = "true" ∧
      boolObj.String false = "false" :=
  ⟨rfl, FormatInt_eq_decimalText n, rfl, rfl, by decide, by decide, rfl, rfl⟩

end eval

/-! ## Display of arrays and hashes -/

namespace eval

/-- The encoding of a slice of scalars has no error case: it is the list of the
JSON texts of its elements. -/
theorem marshalItems_scalars (respJSON : respObj → Except String String) (items : List Object)
    (h : ∀ o ∈ items, isScalar o = true) :
    marshalItems respJSON items = Except.ok (items.map scalarJSON) := by
  induction items with
  | nil => rfl
  | cons o os ih =>
    have ho : isScalar o = true := h o (List.mem_cons_self _ _)
    have hos := ih fun x hx => h x (List.mem_cons_of_mem _ hx)
    cases o <;> simp [isScalar] at ho <;>
      simp [marshalItems, marshalObject, stringObj.MarshalJSON, intObj.MarshalJSON,
        boolObj.MarshalJSON, scalarJSON, hos, FormatInt_eq_decimalText]

/-- C12, as stated, fails: the array whose slice is nil has no element, so
each of its elements is a scalar and the JSON array of its elements is `[]`,
but its display is `null`. -/
theorem array_nil_displays_null :
    (∀ o ∈ sliceItems none, isScalar o = true) ∧
      arrayObj.String sampleRespJSON none = "null" ∧
      arrayObj.String sampleRespJSON none
        ≠ "[" ++ String.intercalate "," ((sliceItems none).map scalarJSON) ++ "]" := by
  refine ⟨by simp [sliceItems], rfl, by decide⟩

/-- C12, amended. The display of an array whose slice is not nil and whose
elements are `stringObj`, `intObj` or `boolObj` values is the JSON array of the
JSON texts of the elements in their order, and the display of the array whose
slice is nil is `null`; the array of the integers 1, 2, 3, 4 displays as
`[1,2,3,4]` and the array of the strings one, two, three as
`["one","two","three"]`. -/
theorem array_display_scalars (respJSON : respObj → Except String String) :
    (∀ items : List Object, (∀ o ∈ items, isScalar o = true) →
        arrayObj.String respJSON (some items)
          = "[" ++ String.intercalate "," (items.map scalarJSON) ++ "]") ∧
      arrayObj.String respJSON none = "null" ∧
      arrayObj.String respJSON intArray = "[1,2,3,4]" ∧
      arrayObj.String respJSON stringArray = "[\"one\",\"two\",\"three\"]" := by
  refine ⟨fun items h => ?_, rfl, rfl, rfl⟩
  simp [arrayObj.String, marshalSlice, marshalItems_scalars respJSON items h]

/-- The amended C12 at an array of a string with a character to escape, a
negative integer and a boolean. -/
theorem array_display_scalars_witness :
    (∀ o ∈ mixedArray, isScalar o = true) ∧
    arrayObj.String sampleRespJSON (some mixedArray)
      = "[" ++ String.intercalate "," (mixedArray.map scalarJSON) ++ "]" ∧
    arrayObj.String sampleRespJSON (some mixedArray) = "[\"a\\u003cb\",-7,false]" :=
  ⟨by decide, (array_display_scalars sampleRespJSON).1 mixedArray (by decide), by decide⟩

/-- C14. When the serialization of the elements of an array returns an error
its display is exactly `[]`, when the serialization of the pairs of a hash
returns an error its display is exactly the empty object, and otherwise the
display is the whole serialization. -/
theorem display_fails_closed (respJSON : respObj → Except String String)
    (items : Option (List Object)) (pairs : Option (List (String × Object))) :
    (∀ e, marshalSlice respJSON items = Except.error e →
        arrayObj.String respJSON items = "[]") ∧
      (∀ e, marshalMap respJSON pairs = Except.error e →
        hashObj.String respJSON pairs = "\x7b\x7d") ∧
      (∀ b, marshalSlice respJSON items = Except.ok b → arrayObj.String respJSON items = b) ∧
      (∀ b, marshalMap respJSON pairs = Except.ok b → hashObj.String respJSON pairs = b) := by
  refine ⟨fun e h => ?_, fun e h => ?_, fun b h => ?_, fun b h => ?_⟩
  · simp [arrayObj.String, h]
  · simp [hashObj.String, h]
  · simp [arrayObj.String, h]
  · simp [hashObj.String, h]

/-- C14 at an array and a hash that hold a request. -/
theorem display_fails_closed_witness :
    marshalSlice sampleRespJSON requestArray
      = Except.error "json: unsupported type: func() (io.ReadCloser, error)" ∧
    marshalMap sampleRespJSON requestHash
      = Except.error "json: unsupported type: func() (io.ReadCloser, error)" ∧
    arrayObj.String sampleRespJSON requestArray = "[]" ∧
    hashObj.String sampleRespJSON requestHash = "\x7b\x7d" :=
  ⟨rfl, rfl,
    (display_fails_closed sampleRespJSON requestArray requestHash).1 _ rfl,
    (display_fails_closed sampleRespJSON requestArray requestHash).2.1 _ rfl⟩

end eval

/-! ## The order of the keys of a hash -/

namespace eval

/-- Two characters with the same code are the same character. -/
theorem char_eq_of_toNat_eq (a b : Char) (h : a.toNat = b.toNat) : a = b := by
  rw [← Char.ofNat_toNat a, ← Char.ofNat_toNat b, h]

/-- No key is before a key that is before it. -/
theorem keyLess_asymm : ∀ a b : List Char, keyLess a b = true → keyLess b a = false
  | _, [], h => by simp [keyLess] at h
  | [], _ :: _, _ => by simp [keyLess]
  | a :: as, b :: bs, h => by
    have ih := keyLess_asymm as bs
    simp only [keyLess] at h ⊢
    split_ifs at h ⊢ <;> first | omega | simp_all

/-- The order of the keys is transitive. -/
theorem keyLess_trans : ∀ a b c : List Char,
    keyLess a b = true → keyLess b c = true → keyLess a c = true
  | _, _, [], _, h2 => by simp [keyLess] at h2
  | _, [], _ :: _, h1, _ => by simp [keyLess] at h1
  | [], _ :: _, _ :: _, _, _ => by simp [keyLess]
  | a :: as, b :: bs, c :: cs, h1, h2 => by
    have ih := keyLess_trans as bs cs
    simp only [keyLess] at h1 h2 ⊢
    split_ifs at h1 h2 ⊢ <;> first | omega | simp_all

/-- Two keys neither of which is before the other are the same key. -/
theorem keyLess_connected : ∀ a b : List Char,
    keyLess a b = false → keyLess b a = false → a = b
  | [], [], _, _ => rfl
  | [], _ :: _, h, _ => by simp [keyLess] at h
  | _ :: _, [], _, h => by simp [keyLess] at h
  | a :: as, b :: bs, h1, h2 => by
    have ih := keyLess_connected as bs
    simp only [keyLess] at h1 h2
    split_ifs at h1 h2
    have hab : a = b := char_eq_of_toNat_eq a b (by omega)
    rw [hab, ih h1 h2]

/-- The order of the keys is the order `<` of lists of characters. -/
theorem keyLess_iff_list_lt : ∀ x y : List Char, keyLess x y = true ↔ x < y
  | _, [] => by
    simp only [keyLess]
    constructor
    · intro h; cases h
    · intro h; cases h
  | [], b :: bs => by
    simp only [keyLess, true_iff]
    exact List.nil_lt_cons b bs
  | a :: as, b :: bs => by
    have ih := keyLess_iff_list_lt as bs
    have hc : ∀ c d : Char, c < d ↔ c.toNat < d.toNat := fun _ _ => Iff.rfl
    simp only [keyLess]
    constructor
    · intro h
      split_ifs at h with h1 h2
      · exact List.Lex.rel ((hc a b).mpr h1)
      · have hab : a = b := char_eq_of_toNat_eq a b (by omega)
        subst hab
        exact List.Lex.cons (ih.mp h)
    · intro h
      cases h with
      | rel hlt => simp [(hc a b).mp hlt]
      | cons hlt => simp [ih.mpr hlt]

/-- The order of the keys on strings is the order `<` of strings. -/
theorem keyLess_iff_lt (a b : String) : keyLess a.data b.data = true ↔ a < b := by
  rw [String.lt_iff_toList_lt]
  exact keyLess_iff_list_lt a.data b.data

end eval

/-! ## Display of hashes -/

namespace eval

/-- The pairs as `json.Marshal` sorts them are the pairs of the map. -/
theorem sortPairs_perm (pairs : List (String × Object)) : (sortPairs pairs).Perm pairs :=
  List.perm_insertionSort _ pairs

/-- The pairs of a map as `json.Marshal` sorts them are in ascending order of
key. -/
theorem sortPairs_sorted (pairs : List (String × Object))
    (hnd : (pairs.map Prod.fst).Nodup) :
    (sortPairs pairs).Sorted fun p q => keyLess p.1.data q.1.data = true := by
  have htotal : IsTotal (String × Object) fun p q => keyLess q.1.data p.1.data = false :=
    ⟨fun p q => by
      cases h : keyLess q.1.data p.1.data
      · exact Or.inl rfl
      · exact Or.inr (keyLess_asymm _ _ h)⟩
  have htrans : IsTrans (String × Object) fun p q => keyLess q.1.data p.1.data = false :=
    ⟨fun p q s hpq hqs => by
      cases hsp : keyLess s.1.data p.1.data
      · rfl
      · cases hpq2 : keyLess p.1.data q.1.data
        · have heq := keyLess_connected _ _ hpq2 hpq
          rw [heq] at hsp
          rw [hsp] at hqs
          exact hqs
        · have := keyLess_trans _ _ _ hsp hpq2
          rw [this] at hqs
          exact hqs⟩
  have hs : (sortPairs pairs).Sorted fun p q => keyLess q.1.data p.1.data = false :=
    List.sorted_insertionSort _ pairs
  have hnd2 : ((sortPairs pairs).map Prod.fst).Nodup :=
    ((sortPairs_perm pairs).map Prod.fst).nodup_iff.mpr hnd
  have hne : (sortPairs pairs).Pairwise fun p q => p.1 ≠ q.1 := by
    simpa [List.Nodup, List.pairwise_map] using hnd2
  refine (List.Pairwise.and hs hne).imp ?_
  rintro p q ⟨hle, hpq⟩
  cases hlt : keyLess p.1.data q.1.data
  · exact absurd (String.ext (keyLess_connected _ _ hlt hle)) hpq
  · rfl

/-- Two lists of pairs of the same map are sorted into the same list. -/
theorem sortPairs_eq_of_perm (p1 p2 : List (String × Object))
    (hnd : (p1.map Prod.fst).Nodup) (hp : p1.Perm p2) : sortPairs p1 = sortPairs p2 := by
  have hnd2 : (p2.map Prod.fst).Nodup := (hp.map Prod.fst).nodup_iff.mp hnd
  have hanti : IsAntisymm (String × Object) fun p q => keyLess p.1.data q.1.data = true :=
    ⟨fun p q h1 h2 => by
      have := keyLess_asymm _ _ h1
      rw [h2] at this
      cases this⟩
  exact List.eq_of_perm_of_sorted
    (((sortPairs_perm p1).trans hp).trans (sortPairs_perm p2).symm)
    (sortPairs_sorted p1 hnd) (sortPairs_sorted p2 hnd2)

/-- The encoding of the members of a map of scalars has no error case: it is
the list of the members, each as its key, a colon and the JSON text of its
value. -/
theorem marshalMembers_scalars (respJSON : respObj → Except String String)
    (m : List (String × Object)) (h : ∀ kv ∈ m, isScalar kv.2 = true) :
    marshalMembers respJSON m
      = Except.ok (m.map fun kv => jsonString kv.1 ++ ":" ++ scalarJSON kv.2) := by
  induction m with
  | nil => rfl
  | cons kv m ih =>
    obtain ⟨k, v⟩ := kv
    have hv : isScalar v = true := h (k, v) (List.mem_cons_self _ _)
    have hm := ih fun x hx => h x (List.mem_cons_of_mem _ hx)
    cases v <;> simp [isScalar] at hv <;>
      simp [marshalMembers, marshalObject, stringObj.MarshalJSON, intObj.MarshalJSON,
        boolObj.MarshalJSON, scalarJSON, hm, FormatInt_eq_decimalText]

/-- C19, as stated, fails: the hash whose map is nil and the hash whose map is
empty hold the same pairs, none, and the first displays as `null`, which is
not a JSON object, and the second as the empty object. -/
theorem hash_nil_displays_null :
    mapPairs none = mapPairs (some []) ∧
      hashObj.String sampleRespJSON none = "null" ∧
      hashObj.String sampleRespJSON (some []) = "\x7b\x7d" ∧
      hashObj.String sampleRespJSON none ≠ hashObj.String sampleRespJSON (some []) := by
  refine ⟨rfl, rfl, rfl, by decide⟩

/-- C19, amended. The display of a hash whose map is not nil does not depend on
the order in which its pairs are held: two lists of the pairs of the same map
display identically.  When the values are `stringObj`, `intObj` or `boolObj`
values the display is the JSON object of the members in ascending order of
key.  The display of the hash whose map is nil is `null`. -/
theorem hash_display_deterministic (respJSON : respObj → Except String String) :
    (∀ p1 p2 : List (String × Object), (p1.map Prod.fst).Nodup → p1.Perm p2 →
        hashObj.String respJSON (some p1) = hashObj.String respJSON (some p2)) ∧
      (∀ pairs : List (String × Object), (pairs.map Prod.fst).Nodup →
        (∀ kv ∈ pairs, isScalar kv.2 = true) →
        ∃ sorted : List (String × Object),
          sorted.Perm pairs ∧
          (sorted.Sorted fun p q => p.1 < q.1) ∧
          hashObj.String respJSON (some pairs)
            = "\x7b" ++ String.intercalate ","
                (sorted.map fun kv => jsonString kv.1 ++ ":" ++ scalarJSON kv.2) ++ "\x7d") ∧
      hashObj.String respJSON none = "null" := by
  refine ⟨?_, ?_, rfl⟩
  · intro p1 p2 hnd hp
    simp [hashObj.String, marshalMap, sortPairs_eq_of_perm p1 p2 hnd hp]
  · intro pairs hnd hsc
    refine ⟨sortPairs pairs, sortPairs_perm pairs, ?_, ?_⟩
    · exact (sortPairs_sorted pairs hnd).imp fun h => (keyLess_iff_lt _ _).mp h
    · have hsc2 : ∀ kv ∈ sortPairs pairs, isScalar kv.2 = true :=
        fun kv hkv => hsc kv ((sortPairs_perm pairs).mem_iff.mp hkv)
      simp [hashObj.String, marshalMap, marshalMembers_scalars respJSON _ hsc2]

/-- The two sample lists hold the same pairs. -/
theorem scalarHash_perm : scalarHash.Perm scalarHashShuffled :=
  @List.perm_append_comm _
    [("String", Object.stringObj "string"), ("Bool", Object.boolObj true)]
    [("Number", Object.intObj 10)]

/-- The amended C19 at a hash of three scalars held in two orders. -/
theorem hash_display_deterministic_witness :
    (scalarHash.map Prod.fst).Nodup ∧ scalarHash.Perm scalarHashShuffled ∧
    hashObj.String sampleRespJSON (some scalarHash)
      = hashObj.String sampleRespJSON (some scalarHashShuffled) ∧
    hashObj.String sampleRespJSON (some scalarHash)
      = "\x7b\"Bool\":true,\"Number\":10,\"String\":\"string\"\x7d" :=
  ⟨by decide, scalarHash_perm,
    (hash_display_deterministic sampleRespJSON).1 scalarHash scalarHashShuffled
      (by decide) scalarHash_perm,
    by decide⟩

end eval

/-! ## Display of files -/

namespace eval

/-- A digit below sixteen is read back from its character. -/
theorem digitVal_digitChar (d : Nat) (hd : d < 16) : digitVal (Nat.digitChar d) = d := by
  interval_cases d <;> rfl

/-- The digits `Nat.toDigits` writes in a base from two to sixteen read back
as the number. -/
theorem digitsValue_toDigits (b : Nat) (hb : 1 < b) (hb16 : b ≤ 16) (n : Nat) :
    digitsValue b (Nat.toDigits b n) = n := by
  by_cases h0 : n = 0
  · subst h0
    simp [digitsValue, Nat.toDigits, Nat.toDigitsCore]
    rfl
  · have hpos : 0 < n := Nat.pos_of_ne_zero h0
    have hmap : ((Nat.digits b n).reverse.map Nat.digitChar).map digitVal
        = (Nat.digits b n).reverse := by
      rw [List.map_map]
      conv_rhs => rw [← List.map_id (Nat.digits b n).reverse]
      apply List.map_congr_left
      intro d hd
      have hlt : d < b := Nat.digits_lt_base hb (List.mem_reverse.mp hd)
      simpa using digitVal_digitChar d (by omega)
    rw [digitsValue, toDigits_eq_digits b hb n hpos, hmap, List.reverse_reverse,
      Nat.ofDigits_digits]

/-- The verb `%p` writes different addresses differently. -/
theorem fmtPointer_injective (a1 a2 : Nat) (h : fmtPointer a1 = fmtPointer a2) : a1 = a2 := by
  have hd : Nat.toDigits 16 a1 = Nat.toDigits 16 a2 := by
    have h2 := congrArg String.data h
    simpa [fmtPointer, List.asString] using h2
  rw [← digitsValue_toDigits 16 (by norm_num) (by norm_num) a1, hd,
    digitsValue_toDigits 16 (by norm_num) (by norm_num) a2]

/-- C17, as stated, fails: the same name at two addresses has two different
displays, each of which holds its address. -/
theorem file_display_depends_on_address :
    fileObj.String sampleQuote 824633786368 "notes.txt"
        = "File<addr=0xc000010000, name=\"notes.txt\">" ∧
      fileObj.String sampleQuote 824633786376 "notes.txt"
        = "File<addr=0xc000010008, name=\"notes.txt\">" ∧
      fileObj.String sampleQuote 824633786368 "notes.txt"
        ≠ fileObj.String sampleQuote 824633786376 "notes.txt" := by
  refine ⟨by decide, by decide, by decide⟩

/-- C17, amended. The display of a file is a function of the address of its
handle and of its name: it is `File<addr=`, the address in hexadecimal after
`0x`, `, name=`, the quoted name and `>`, and two files of the same name display
identically exactly when they are at the same address. -/
theorem file_display_address_and_name (quote : String → String) (a1 a2 : Nat)
    (name : String) :
    fileObj.String quote a1 name
        = "File<addr=0x" ++ (Nat.toDigits 16 a1).asString ++ ", name=" ++ quote name ++ ">" ∧
      (fileObj.String quote a1 name = fileObj.String quote a2 name ↔ a1 = a2) := by
  refine ⟨?_, fun h => ?_, fun h => by rw [h]⟩
  · simp only [fileObj.String, fmtPointer, String.append_assoc]
    rw [← String.append_assoc "File<addr=" "0x"]
    rfl
  · apply fmtPointer_injective
    have h2 := congrArg String.data h
    simp only [fileObj.String, String.data_append, List.append_assoc] at h2
    have h3 := List.append_cancel_left h2
    have h4 := List.append_cancel_right h3
    exact String.ext h4

end eval

/-! ## Nested containers, streams and responses without a body -/

namespace eval

/-- C13. The hash that binds `Child` to a hash of an array displays with the
empty object in the place of the nested hash, and the array of an array with
the empty object in the place of the nested array: `arrayObj` and `hashObj`
have no `MarshalJSON`, so an element of either type is not rendered through
its own elements. -/
theorem nested_display_not_recursive (respJSON : respObj → Except String String) :
    hashObj.String respJSON nestedHash = "\x7b\"Child\":\x7b\x7d\x7d" ∧
      hashObj.String respJSON nestedHash
        ≠ "\x7b\"Child\":\x7b\"Array\":[\"one\",\"two\",\"three\"]\x7d\x7d" ∧
      arrayObj.String respJSON nestedArray = "[\x7b\x7d]" ∧
      arrayObj.String respJSON nestedArray ≠ "[[1,2,3,4]]" := by
  refine ⟨rfl, ?_, rfl, ?_⟩
  · have h : hashObj.String respJSON nestedHash = "\x7b\"Child\":\x7b\x7d\x7d" := rfl
    rw [h]
    decide
  · have h : arrayObj.String respJSON nestedArray = "[\x7b\x7d]" := rfl
    rw [h]
    decide

/-- C15. The stream that `Select` with the name `Body` returns for the sample
request displays as `hello` the first time and as the empty string the second
time: `streamObj.String` reads the reader to its end and does not seek back. -/
theorem stream_display_twice :
    ∃ s r1 s1 s2,
      reqObj.Select sampleReq (Object.nameObj "Body")
        = Run.ret (Except.ok (Object.streamObj s), r1) ∧
      streamObj.String s = ("hello", s1) ∧
      streamObj.String s1 = ("", s2) :=
  ⟨{ rs := some { unread := "hello" } }, sampleReq, { rs := some { unread := "" } },
    { rs := some { unread := "" } }, rfl, rfl, rfl⟩

/-- The method `reqObj.String` returns on every request, with or without a
body. -/
theorem reqObj_String_returns (headerWrite : Header → String) (r : reqObj) :
    ∃ text r1, reqObj.String headerWrite r = Run.ret (text, r1) := by
  cases hb : r.Body with
  | none => simp [reqObj.String, hb]
  | some body => simp [reqObj.String, hb]

/-- The method `respObj.String` returns on every response that has a body. -/
theorem respObj_String_returns (headerWrite : Header → String) (r : respObj)
    (body : ReadCloser) (hb : r.Body = some body) :
    ∃ text r1, respObj.String headerWrite r = Run.ret (text, r1) := by
  simp [respObj.String, hb]

/-- C16. On a response without a body `respObj.String` does not return a
string: `copyrc` is called on the nil body and the read from it is a nil
dereference, whatever the rendering of the headers; on the request without a
body `reqObj.String` returns the request line and the headers. -/
theorem respObj_String_nil_body_panics (headerWrite : Header → String) :
    respObj.String headerWrite bodilessResp
        = Run.panic "runtime error: invalid memory address or nil pointer dereference" ∧
      reqObj.String headerWrite bodilessReq
        = Run.ret ("GET HTTP/1.1\n" ++ headerWrite [], bodilessReq) :=
  ⟨rfl, rfl⟩

end eval

/-! ## Tuple comparison, the whole function -/

namespace value

/-- C18. `Tuple.cmp` returns a nil error if and only if the call on `T1` or the
call on `T2` returns a `Bool` whose value is true; it then returns `Bool` true;
in every other case it returns no value and the error `opError(op, tupleType)`;
in no case does it return `Bool` false. -/
theorem Tuple_cmp_never_false (vcmp : Value → Op → Value → Result)
    (opError : Op → valueType → error) (t : Tuple) (op : Op) (b : Value) :
    ((Tuple.cmp vcmp opError t op b).2 = none ↔
        ((vcmp t.T1 op b).1 = some (Value.Bool true) ∨
          (vcmp t.T2 op b).1 = some (Value.Bool true))) ∧
      (((vcmp t.T1 op b).1 = some (Value.Bool true) ∨
          (vcmp t.T2 op b).1 = some (Value.Bool true)) →
        Tuple.cmp vcmp opError t op b = (some (Value.Bool true), none)) ∧
      (¬ ((vcmp t.T1 op b).1 = some (Value.Bool true) ∨
          (vcmp t.T2 op b).1 = some (Value.Bool true)) →
        Tuple.cmp vcmp opError t op b = (none, some (opError op valueType.tupleType))) ∧
      (Tuple.cmp vcmp opError t op b).1 ≠ some (Value.Bool false) := by
  by_cases h1 : (vcmp t.T1 op b).1 = some (Value.Bool true)
  · simp [Tuple.cmp, Tuple.cmpLoop, h1]
  · by_cases h2 : (vcmp t.T2 op b).1 = some (Value.Bool true)
    · have hr : Tuple.cmp vcmp opError t op b = (some (Value.Bool true), none) := by
        simp only [Tuple.cmp, Tuple.cmpLoop]
        split <;> simp_all
      simp [hr, h2]
    · have hr : Tuple.cmp vcmp opError t op b
          = (none, some (opError op valueType.tupleType)) := by
        simp only [Tuple.cmp, Tuple.cmpLoop]
      simp [hr, h1, h2]

/-- C18 at a tuple of two booleans both of which compare false with the
operand, and at a tuple whose second alternative compares true. -/
theorem Tuple_cmp_never_false_witness :
    ¬ ((sampleCmp (Value.Bool true) 0 (Value.Bool false)).1 = some (Value.Bool true) ∨
        (sampleCmp (Value.Bool true) 0 (Value.Bool false)).1 = some (Value.Bool true)) ∧
    Tuple.cmp sampleCmp sampleOpError ⟨Value.Bool true, Value.Bool true⟩ 0 (Value.Bool false)
      = (none, some (sampleOpError 0 valueType.tupleType)) ∧
    Tuple.cmp sampleCmp sampleOpError ⟨Value.other 7, Value.Bool true⟩ 0 (Value.Bool true)
      = (some (Value.Bool true), none) :=
  ⟨by decide,
    (Tuple_cmp_never_false sampleCmp sampleOpError ⟨Value.Bool true, Value.Bool true⟩ 0
      (Value.Bool false)).2.2.1 (by decide),
    (Tuple_cmp_never_false sampleCmp sampleOpError ⟨Value.other 7, Value.Bool true⟩ 0
      (Value.Bool true)).2.1 (by decide)⟩

end value
